import Mathlib

set_option maxRecDepth 8000

/-!
Shallow embedding of the core pipeline of the `pts` repository
(`src/pisteet3_web.py` and `src/pisteet_web.py`): PDF text extraction
fallback loop, row parsing via the regex
`\b([A-Z0-9]{5})\s+((?:\d{2}\.\d{2}\.\d{4}))\s+((?:\d{2}[:\.]\d{2}))\b`,
points-table loading, aggregation, and CSV export.

Python `str`/`re` character classes are modelled over their ASCII
fragments (`\w`, `\s`, `\d`, `str.strip`, `str.upper`); all inputs
appearing in the claims and in the source's documented row format are
ASCII, so the restriction does not affect any settled claim.
-/

/-- ASCII fragment of Python's regex `\w` (word character): `[a-zA-Z0-9_]`. -/
def isWordChar (c : Char) : Bool := c.isAlphanum || c == '_'

/-- Characters matching the regex class `[A-Z0-9]` of `CODE_PAT`. -/
def isCodeChar (c : Char) : Bool := ('A' ≤ c && c ≤ 'Z') || ('0' ≤ c && c ≤ '9')

/-- ASCII fragment of Python's regex `\s` and `str.isspace`. -/
def pyIsSpace (c : Char) : Bool :=
  c == ' ' || c == '\t' || c == '\n' || c == '\r' || c == '\x0b' || c == '\x0c'

/-- ASCII decimal digit, the fragment of Python's regex `\d`. -/
def pyIsDigit (c : Char) : Bool := '0' ≤ c && c ≤ '9'

/-- Numeric value of an ASCII digit character. -/
def charVal (c : Char) : Nat := c.toNat - 48

/-- Python `str.replace(a, b)` for one-character `a`, `b`: characterwise
substitution, used for the time-separator normalization in `parse_pdf_rows`. -/
def pyReplaceChar (s : String) (a b : Char) : String :=
  ⟨s.toList.map (fun c => if c == a then b else c)⟩

/-- Python `str.strip()` over the ASCII whitespace fragment. -/
def pyStrip (s : String) : String :=
  ⟨(s.toList.dropWhile pyIsSpace).reverse.dropWhile pyIsSpace |>.reverse⟩

/-- Python `str.upper()` over the ASCII fragment. -/
def pyUpper (s : String) : String := ⟨s.toList.map Char.toUpper⟩

/-- Insertion-ordered association list with Python `dict` semantics:
lookup returns the binding of the first matching key, update replaces
the first matching key in place and otherwise appends. -/
def Dict (K V : Type) : Type := List (K × V)

instance (K V : Type) [DecidableEq K] [DecidableEq V] : DecidableEq (Dict K V) := by
  unfold Dict; infer_instance

namespace Dict

/-- The empty dict. -/
def empty {K V : Type} : Dict K V := []

/-- Python `d[k]` / `d.get(k)`: value at the first matching key. -/
def get {K V : Type} [DecidableEq K] : Dict K V → K → Option V
  | [], _ => none
  | (k', v) :: t, k => if k = k' then some v else get t k

/-- Python `d[k] = v`: replace in place if the key is present, else append. -/
def set {K V : Type} [DecidableEq K] : Dict K V → K → V → Dict K V
  | [], k, v => [(k, v)]
  | (k', v') :: t, k, v => if k = k' then (k', v) :: t else (k', v') :: set t k v

/-- The key list, in insertion order (Python `d.keys()`). -/
def keys {K V : Type} (m : Dict K V) : List K := m.map Prod.fst

end Dict

/-- A `datetime.datetime` as produced by `strptime` with format
`%d.%m.%Y %H.%M` (seconds and finer are always zero here). -/
structure DateTime where
  year : Nat
  month : Nat
  day : Nat
  hour : Nat
  minute : Nat
deriving DecidableEq, Repr

/-- Gregorian leap-year rule used by Python's `datetime`. -/
def isLeap (y : Nat) : Bool := y % 4 == 0 && (y % 100 != 0 || y % 400 == 0)

/-- Days in a month, as validated by the `datetime` constructor. -/
def daysInMonth (y m : Nat) : Nat :=
  if m = 2 then (if isLeap y then 29 else 28)
  else if m = 4 || m = 6 || m = 9 || m = 11 then 30
  else 31

/-- The calendar validity check performed by
`datetime.strptime(_, "%d.%m.%Y %H.%M")`: year 1..9999, month 1..12,
day within the month, hour 0..23, minute 0..59. -/
def validDateTime (d m y hh mi : Nat) : Bool :=
  1 ≤ y && y ≤ 9999 && 1 ≤ m && m ≤ 12 && 1 ≤ d && d ≤ daysInMonth y m
    && hh ≤ 23 && mi ≤ 59

/-- `datetime.strptime(s, "%d.%m.%Y %H<sep>%M")` restricted to the exact
argument shape produced at its call sites in `parse_pdf_rows`: the date
group always matches `\d{2}\.\d{2}\.\d{4}` and the time group
`\d{2}[:\.]\d{2}`, so the input is always 16 characters of this layout;
on that domain Python's `strptime` succeeds exactly when the fields form
a valid calendar timestamp. -/
def strptime (s : String) (sep : Char) : Option DateTime :=
  match s.toList with
  | [d1, d2, q1, m1, m2, q2, y1, y2, y3, y4, sp, h1, h2, q3, n1, n2] =>
    if q1 == '.' && q2 == '.' && sp == ' ' && q3 == sep
        && pyIsDigit d1 && pyIsDigit d2 && pyIsDigit m1 && pyIsDigit m2
        && pyIsDigit y1 && pyIsDigit y2 && pyIsDigit y3 && pyIsDigit y4
        && pyIsDigit h1 && pyIsDigit h2 && pyIsDigit n1 && pyIsDigit n2 then
      let dd := charVal d1 * 10 + charVal d2
      let mm := charVal m1 * 10 + charVal m2
      let yy := charVal y1 * 1000 + charVal y2 * 100 + charVal y3 * 10 + charVal y4
      let hh := charVal h1 * 10 + charVal h2
      let mi := charVal n1 * 10 + charVal n2
      if validDateTime dd mm yy hh mi then some ⟨yy, mm, dd, hh, mi⟩ else none
    else none
  | _ => none

/-- One match of `ROW_RE`: the three capture groups (code, date, time). -/
structure RawMatch where
  code : String
  day : String
  time : String
deriving DecidableEq, Repr

/-- Attempt to match `ROW_RE` at the current position (hand-compiled from
the pattern `\b([A-Z0-9]{5})\s+(\d{2}\.\d{2}\.\d{4})\s+(\d{2}[:\.]\d{2})\b`).
`prev` is the character before the position (`none` at the start of the
text).  The leading `\b` precedes a `[A-Z0-9]` (word) character, so it
holds exactly when `prev` is absent or a non-word character; when `prev`
is a word character the boundary and the overall match fail either way.
`\s+` is matched greedily without backtracking, which is exact because
no whitespace character is a digit.  On success, returns the three
groups, the match length minus one (the scanner has already consumed one
character), and the final character of the match (for the next `\b`). -/
def matchRowAt (prev : Option Char) (l : List Char) : Option (RawMatch × Nat × Char) :=
  if prev.any isWordChar then none else
  match l with
  | c1 :: c2 :: c3 :: c4 :: c5 :: r1 =>
    if isCodeChar c1 && isCodeChar c2 && isCodeChar c3 && isCodeChar c4 && isCodeChar c5 then
      let s1 := r1.takeWhile pyIsSpace
      let r2 := r1.dropWhile pyIsSpace
      if s1.isEmpty then none else
      match r2 with
      | d1 :: d2 :: q1 :: m1 :: m2 :: q2 :: y1 :: y2 :: y3 :: y4 :: r3 =>
        if pyIsDigit d1 && pyIsDigit d2 && q1 == '.' && pyIsDigit m1 && pyIsDigit m2
            && q2 == '.' && pyIsDigit y1 && pyIsDigit y2 && pyIsDigit y3 && pyIsDigit y4 then
          let s2 := r3.takeWhile pyIsSpace
          let r4 := r3.dropWhile pyIsSpace
          if s2.isEmpty then none else
          match r4 with
          | h1 :: h2 :: sp :: n1 :: n2 :: r5 =>
            if pyIsDigit h1 && pyIsDigit h2 && (sp == ':' || sp == '.')
                && pyIsDigit n1 && pyIsDigit n2 then
              if r5.head?.any isWordChar then none
              else some (⟨⟨[c1, c2, c3, c4, c5]⟩,
                          ⟨[d1, d2, q1, m1, m2, q2, y1, y2, y3, y4]⟩,
                          ⟨[h1, h2, sp, n1, n2]⟩⟩,
                         19 + s1.length + s2.length, n2)
            else none
          | _ => none
        else none
      | _ => none
    else none
  | _ => none

/-- Scanner for `ROW_RE.finditer`: leftmost matches, non-overlapping,
resuming after each match.  Every match consumes at least one character,
so fuel equal to the text length never runs out. -/
def scanRows : Nat → Option Char → List Char → List RawMatch
  | 0, _, _ => []
  | _ + 1, _, [] => []
  | fuel + 1, prev, c :: rest =>
    match matchRowAt prev (c :: rest) with
    | some (m, k, lastc) => m :: scanRows fuel (some lastc) (rest.drop k)
    | none => scanRows fuel (some c) rest

/-- `ROW_RE.finditer(text)`, as the list of capture-group triples. -/
def finditer (text : String) : List RawMatch :=
  scanRows text.toList.length none text.toList

/-- The dataclass `Row`. -/
structure Row where
  code : String
  dt : DateTime
deriving DecidableEq, Repr

/-- The per-match body of the loop in `parse_pdf_rows`: normalize the
time separator to `.`, try `strptime` with `%d.%m.%Y %H.%M`, on
`ValueError` retry with `:` and `%d.%m.%Y %H:%M`; a second failure
propagates out of the function as an uncaught `ValueError`. -/
def rowOfMatch (m : RawMatch) : Except String Row :=
  let tim := pyReplaceChar m.time ':' '.'
  match strptime (m.day ++ " " ++ tim) '.' with
  | some t => .ok ⟨m.code, t⟩
  | none =>
    let tim2 := pyReplaceChar tim '.' ':'
    match strptime (m.day ++ " " ++ tim2) ':' with
    | some t => .ok ⟨m.code, t⟩
    | none => .error "ValueError"

/-- `parse_pdf_rows` (identical in both source files): one `Row` per
regex match; an uncaught `ValueError` from `strptime` aborts the whole
call, which the embedding renders as `Except.error`. -/
def parse_pdf_rows (text : String) : Except String (List Row) :=
  (finditer text).mapM rowOfMatch

/-- Line-break characters of Python `str.splitlines` (other than the
two-character sequence CRLF, handled separately). -/
def isLineBreak (c : Char) : Bool :=
  c == '\n' || c == '\r' || c == '\x0b' || c == '\x0c' || c == '\x1c'
    || c == '\x1d' || c == '\x1e' || c == '\x85' || c == '\u2028' || c == '\u2029'

/-- Worker for `str.splitlines`; `acc` holds the current line reversed. -/
def splitlinesAux (acc : List Char) : List Char → List String
  | [] => if acc.isEmpty then [] else [⟨acc.reverse⟩]
  | '\r' :: '\n' :: rest => (⟨acc.reverse⟩ : String) :: splitlinesAux [] rest
  | c :: rest =>
    if isLineBreak c then (⟨acc.reverse⟩ : String) :: splitlinesAux [] rest
    else splitlinesAux (c :: acc) rest

/-- Python `str.splitlines()`: no trailing empty line for text ending in
a line break, and CRLF counts as a single break. -/
def pySplitlines (s : String) : List String := splitlinesAux [] s.toList

/-- Worker for `re.split(r"\s+", line)` on an already-stripped line:
the maximal non-whitespace runs, in order.  Fuel equal to the character
count suffices since every step consumes at least one character. -/
def wordsAux : Nat → List Char → List String
  | 0, _ => []
  | _ + 1, [] => []
  | fuel + 1, c :: r =>
    if pyIsSpace c then wordsAux fuel r
    else (⟨c :: r.takeWhile (fun x => !pyIsSpace x)⟩ : String)
      :: wordsAux fuel (r.dropWhile (fun x => !pyIsSpace x))

/-- `re.split(r"\s+", line)` for a stripped line (no leading or trailing
whitespace, so the split pieces are exactly the words and none is empty). -/
def pyWords (s : String) : List String := wordsAux s.toList.length s.toList

/-- Digits-to-value accumulator. -/
def digitsVal (l : List Char) : Nat := l.foldl (fun a c => a * 10 + charVal c) 0

/-- A non-empty all-digit token parsed as a `Nat`. -/
def natOfDigits (l : List Char) : Option Nat :=
  if !l.isEmpty && l.all pyIsDigit then some (digitsVal l) else none

/-- Python `int(s)` on a whitespace-free token: optional sign and a
non-empty digit run.  (PEP 515 underscore separators and non-ASCII
decimal digits are outside the modelled fragment.) -/
def pyParseInt (s : String) : Option Int :=
  match s.toList with
  | '+' :: rest => (natOfDigits rest).map Int.ofNat
  | '-' :: rest => (natOfDigits rest).map (fun n => -(n : Int))
  | l => (natOfDigits l).map Int.ofNat

/-- Exponent suffix of a float literal: empty, or `e`/`E`, optional
sign, non-empty digit run; yields mantissa and decimal exponent. -/
def parseExpSuffix (mant : Nat) (e : Int) : List Char → Option (Nat × Int)
  | [] => some (mant, e)
  | c :: r =>
    if c == 'e' || c == 'E' then
      match r with
      | '+' :: r2 => (natOfDigits r2).map (fun k => (mant, e + (k : Int)))
      | '-' :: r2 => (natOfDigits r2).map (fun k => (mant, e - (k : Int)))
      | _ => (natOfDigits r).map (fun k => (mant, e + (k : Int)))
    else none

/-- Unsigned body of a Python float literal: `digits [. digits]` or
`. digits`, then an optional exponent; yields mantissa and exponent. -/
def parseFloatBody (l : List Char) : Option (Nat × Int) :=
  let ip := l.takeWhile pyIsDigit
  let r1 := l.dropWhile pyIsDigit
  match r1 with
  | '.' :: r2 =>
    let fp := r2.takeWhile pyIsDigit
    let r3 := r2.dropWhile pyIsDigit
    if ip.isEmpty && fp.isEmpty then none
    else parseExpSuffix (digitsVal (ip ++ fp)) (-(fp.length : Int)) r3
  | _ => if ip.isEmpty then none else parseExpSuffix (digitsVal ip) 0 r1

/-- Truncation toward zero of the magnitude `mant * 10 ^ e`, refused
when the value overflows the IEEE double range (`int(float(s))` then
raises `OverflowError`, which the caller swallows, skipping the line —
the same outcome as the `inf`/`nan` spellings, which this parser simply
rejects).  The decimal value is treated as exact; IEEE rounding of
values within one unit in the last place of an integer is not modelled. -/
def floatTruncMag (mant : Nat) (e : Int) : Option Nat :=
  let t := if 0 ≤ e then mant * 10 ^ e.toNat else mant / 10 ^ (-e).toNat
  if 2 ^ 1024 ≤ t then none else some t

/-- Python `int(float(s))` on a whitespace-free token: parse as a float
literal, truncate toward zero. -/
def pyFloatToInt (s : String) : Option Int :=
  match s.toList with
  | '+' :: rest => (parseFloatBody rest).bind fun p =>
      (floatTruncMag p.1 p.2).map Int.ofNat
  | '-' :: rest => (parseFloatBody rest).bind fun p =>
      (floatTruncMag p.1 p.2).map (fun n => -(n : Int))
  | l => (parseFloatBody l).bind fun p => (floatTruncMag p.1 p.2).map Int.ofNat

/-- The loop body of `read_points_txt_bytes` for one line: strip, skip
blank and `#`-comment lines, split on whitespace runs, skip lines with
fewer than two tokens, parse the last token as `int` and otherwise as a
truncated `float`, skip the line when both fail; on success yield the
uppercased first token and the value. -/
def processLine (line : String) : Option (String × Int) :=
  let l := pyStrip line
  match h : l.toList with
  | [] => none
  | c :: _ =>
    if c == '#' then none
    else
      match pyWords l with
      | [] => none
      | [_] => none
      | p0 :: p1 :: rest =>
        let pts := (p1 :: rest).getLast (by simp)
        match pyParseInt pts with
        | some v => some (pyUpper p0, v)
        | none =>
          match pyFloatToInt pts with
          | some v => some (pyUpper p0, v)
          | none => none

/-- `read_points_txt_bytes` after the permissive UTF-8 decode (the byte
decode itself is outside the model; the function is settled over the
decoded text, which is how the claims state it). -/
def read_points_txt (text : String) : Dict String Int :=
  (pySplitlines text).foldl
    (fun m line => match processLine line with
      | some (c, v) => m.set c v
      | none => m)
    Dict.empty

/-- The per-code accumulator dict `{'count': …, 'per_code': …, 'sum': …}`. -/
structure CodeStat where
  count : Int
  per_code : Int
  sum : Int
deriving DecidableEq, Repr

/-- The `defaultdict` factory value `{'count': 0, 'per_code': 0, 'sum': 0}`. -/
def CodeStat.init : CodeStat := ⟨0, 0, 0⟩

/-- The tuple returned by `aggregate`. -/
structure AggResult where
  daily_totals : Dict String Int
  daily_by_code : Dict String (Dict String CodeStat)
  totals_by_code : Dict String CodeStat
  grand_total : Int

/-- The loop of `read_pdf_text_bytes` over the results of the three
backend wrappers (each wrapper returns `None` when its library is
missing or raises, else the extracted text): return the first result
that is a string with non-blank `strip()`, else raise `RuntimeError`. -/
def read_pdf_text_list : List (Option String) → Except String String
  | [] => .error "PDF-tekstin luku epäonnistui. Tarvitaan pdfplumber, PyPDF2 tai PyMuPDF. Jos PDF on skannattu kuva, tarvitaan OCR."
  | none :: rest => read_pdf_text_list rest
  | some txt :: rest => if pyStrip txt = "" then read_pdf_text_list rest else .ok txt

/-- `read_pdf_text_bytes(data)`, parameterized by the result each backend
wrapper produces on `data`, in the source's fixed tuple order
`(_read_pdf_text_with_pdfplumber_bytes, _read_pdf_text_with_pypdf2_bytes,
_read_pdf_text_with_pymupdf_bytes)`. -/
def read_pdf_text_bytes (plumber pypdf2 pymupdf : Option String) : Except String String :=
  read_pdf_text_list [plumber, pypdf2, pymupdf]

/-- Two-digit zero-padded decimal rendering. -/
def pad2 (n : Nat) : String := ⟨[Nat.digitChar (n / 10 % 10), Nat.digitChar (n % 10)]⟩

/-- Four-digit zero-padded decimal rendering. -/
def pad4 (n : Nat) : String :=
  ⟨[Nat.digitChar (n / 1000 % 10), Nat.digitChar (n / 100 % 10),
    Nat.digitChar (n / 10 % 10), Nat.digitChar (n % 10)]⟩

/-- `r.dt.strftime("%Y-%m-%d")` (zero-padded; C libraries differ on
padding years below 1000, which no claim depends on — the key is only
ever compared for equality). -/
def dateKey (t : DateTime) : String := pad4 t.year ++ "-" ++ pad2 t.month ++ "-" ++ pad2 t.day

/-- One iteration of the `for r in rows` loop in `aggregate`, including
the `defaultdict` materialization of missing entries. -/
def aggStep (pm : Dict String Int) (st : AggResult) (r : Row) : AggResult :=
  let dk := dateKey r.dt
  let pc := (pm.get r.code).getD 0
  let inner := (st.daily_by_code.get dk).getD Dict.empty
  let d := (inner.get r.code).getD CodeStat.init
  let dNew : CodeStat := ⟨d.count + 1, pc, (d.count + 1) * pc⟩
  let t := (st.totals_by_code.get r.code).getD CodeStat.init
  let tNew : CodeStat := ⟨t.count + 1, pc, (t.count + 1) * pc⟩
  { daily_totals := st.daily_totals.set dk ((st.daily_totals.get dk).getD 0 + pc)
    daily_by_code := st.daily_by_code.set dk (inner.set r.code dNew)
    totals_by_code := st.totals_by_code.set r.code tNew
    grand_total := st.grand_total + pc }

/-- `aggregate(rows, points_map)` (identical in both source files); the
final conversion of the `defaultdict`s to plain `dict`s preserves
contents and order and is a no-op here. -/
def aggregate (rows : List Row) (pm : Dict String Int) : AggResult :=
  rows.foldl (aggStep pm) ⟨Dict.empty, Dict.empty, Dict.empty, 0⟩

/-- Python string comparison on code points (`a < b` on `str`),
as a boolean `≤` on the character lists. -/
def charListLe : List Char → List Char → Bool
  | [], _ => true
  | _ :: _, [] => false
  | a :: as, b :: bs => if a < b then true else if b < a then false else charListLe as bs

/-- Python `a <= b` on strings. -/
def pyStrLe (s t : String) : Bool := charListLe s.toList t.toList

/-- Insert into a `pyStrLe`-sorted list, keeping it sorted. -/
def ordInsert (x : String) : List String → List String
  | [] => [x]
  | y :: ys => if pyStrLe x y then x :: y :: ys else y :: ordInsert x ys

/-- Python `sorted` on strings: some sorting of the list ascending by
code-point order (Python's own algorithm differs, but for a sort the
result is determined by the multiset and the order, up to ties). -/
def pySorted : List String → List String
  | [] => []
  | x :: xs => ordInsert x (pySorted xs)

/-- Quoting predicate of `csv.writer` with `delimiter=";"` and default
`QUOTE_MINIMAL`: a field is quoted when it contains the delimiter, the
quote character, or a line-terminator character. -/
def csvNeedsQuote (s : String) : Bool :=
  s.toList.any (fun c => c == ';' || c == '"' || c == '\r' || c == '\n')

/-- Quote a field, doubling embedded quote characters. -/
def csvQuote (s : String) : String :=
  "\"" ++ (⟨s.toList.foldr (fun c acc => if c == '"' then '"' :: '"' :: acc else c :: acc) []⟩ : String) ++ "\""

/-- Render one field under `QUOTE_MINIMAL`. -/
def csvField (s : String) : String := if csvNeedsQuote s then csvQuote s else s

/-- Semicolon-join of a row's rendered fields. -/
def joinSemi : List String → String
  | [] => ""
  | [f] => f
  | f :: rest => f ++ ";" ++ joinSemi rest

/-- `csv.writer(…, delimiter=";").writerow(fields)`: semicolon-joined
fields and the default `\r\n` line terminator. -/
def writerow (fields : List String) : String :=
  joinSemi (fields.map csvField) ++ "\r\n"

/-- Decimal digit list of a natural number; fuel `n + 1` always suffices. -/
def natStrAux : Nat → Nat → List Char
  | 0, _ => []
  | fuel + 1, n => if n < 10 then [Nat.digitChar n] else natStrAux fuel (n / 10) ++ [Nat.digitChar (n % 10)]

/-- Python `str(n)` for a non-negative integer. -/
def pyNatStr (n : Nat) : String := ⟨natStrAux (n + 1) n⟩

/-- Python `str(v)` for an integer. -/
def pyIntStr (v : Int) : String := if v < 0 then "-" ++ pyNatStr v.natAbs else pyNatStr v.natAbs

/-- The text written by `to_csv_bytes_daily` before UTF-8 encoding:
header `Paiva;Pisteet`, then one row per key of `daily_totals` in
ascending order. -/
def toCsvDailyText (daily_totals : Dict String Int) : String :=
  writerow ["Paiva", "Pisteet"]
    ++ String.join ((pySorted daily_totals.keys).map
        fun d => writerow [d, pyIntStr ((daily_totals.get d).getD 0)])

/-- `to_csv_bytes_daily`: the UTF-8 encoding of the rendered table. -/
def to_csv_bytes_daily (daily_totals : Dict String Int) : ByteArray :=
  (toCsvDailyText daily_totals).toUTF8

/-- The text written by `to_csv_bytes_day_detail` before UTF-8 encoding:
header `Koodi;Kpl;Pist./koodi;Pisteet yht.`, then one row per code of
`by_code` in ascending order. -/
def toCsvDetailText (by_code : Dict String CodeStat) : String :=
  writerow ["Koodi", "Kpl", "Pist./koodi", "Pisteet yht."]
    ++ String.join ((pySorted by_code.keys).map
        fun c =>
          let d := (by_code.get c).getD CodeStat.init
          writerow [c, pyIntStr d.count, pyIntStr d.per_code, pyIntStr d.sum])

/-- `to_csv_bytes_day_detail`: the UTF-8 encoding of the rendered table. -/
def to_csv_bytes_day_detail (by_code : Dict String CodeStat) : ByteArray :=
  (toCsvDetailText by_code).toUTF8

/-!
Separate embedding of `src/pisteet_web.py`, whose module-level regex
constants and functions `parse_pdf_rows`, `read_points_txt_bytes` and
`aggregate` are its own copies of the same code.  Python builtins and
library routines (`str` methods, `re` matching, `strptime`, `dict`)
are the shared runtime and keep a single model; the code that appears
in the file itself is duplicated below.
-/

namespace PW

/-- `pisteet_web.py`: `ROW_RE` match attempt (same pattern text). -/
def matchRowAt (prev : Option Char) (l : List Char) : Option (RawMatch × Nat × Char) :=
  if prev.any isWordChar then none else
  match l with
  | c1 :: c2 :: c3 :: c4 :: c5 :: r1 =>
    if isCodeChar c1 && isCodeChar c2 && isCodeChar c3 && isCodeChar c4 && isCodeChar c5 then
      let s1 := r1.takeWhile pyIsSpace
      let r2 := r1.dropWhile pyIsSpace
      if s1.isEmpty then none else
      match r2 with
      | d1 :: d2 :: q1 :: m1 :: m2 :: q2 :: y1 :: y2 :: y3 :: y4 :: r3 =>
        if pyIsDigit d1 && pyIsDigit d2 && q1 == '.' && pyIsDigit m1 && pyIsDigit m2
            && q2 == '.' && pyIsDigit y1 && pyIsDigit y2 && pyIsDigit y3 && pyIsDigit y4 then
          let s2 := r3.takeWhile pyIsSpace
          let r4 := r3.dropWhile pyIsSpace
          if s2.isEmpty then none else
          match r4 with
          | h1 :: h2 :: sp :: n1 :: n2 :: r5 =>
            if pyIsDigit h1 && pyIsDigit h2 && (sp == ':' || sp == '.')
                && pyIsDigit n1 && pyIsDigit n2 then
              if r5.head?.any isWordChar then none
              else some (⟨⟨[c1, c2, c3, c4, c5]⟩,
                          ⟨[d1, d2, q1, m1, m2, q2, y1, y2, y3, y4]⟩,
                          ⟨[h1, h2, sp, n1, n2]⟩⟩,
                         19 + s1.length + s2.length, n2)
            else none
          | _ => none
        else none
      | _ => none
    else none
  | _ => none

/-- `pisteet_web.py`: scanner for `ROW_RE.finditer`. -/
def scanRows : Nat → Option Char → List Char → List RawMatch
  | 0, _, _ => []
  | _ + 1, _, [] => []
  | fuel + 1, prev, c :: rest =>
    match matchRowAt prev (c :: rest) with
    | some (m, k, lastc) => m :: scanRows fuel (some lastc) (rest.drop k)
    | none => scanRows fuel (some c) rest

/-- `pisteet_web.py`: `ROW_RE.finditer(text)`. -/
def finditer (text : String) : List RawMatch :=
  scanRows text.toList.length none text.toList

/-- `pisteet_web.py`: per-match body of `parse_pdf_rows`. -/
def rowOfMatch (m : RawMatch) : Except String Row :=
  let tim := pyReplaceChar m.time ':' '.'
  match strptime (m.day ++ " " ++ tim) '.' with
  | some t => .ok ⟨m.code, t⟩
  | none =>
    let tim2 := pyReplaceChar tim '.' ':'
    match strptime (m.day ++ " " ++ tim2) ':' with
    | some t => .ok ⟨m.code, t⟩
    | none => .error "ValueError"

/-- `pisteet_web.py`: `parse_pdf_rows`. -/
def parse_pdf_rows (text : String) : Except String (List Row) :=
  (finditer text).mapM rowOfMatch

/-- `pisteet_web.py`: loop body of `read_points_txt_bytes` for one line. -/
def processLine (line : String) : Option (String × Int) :=
  let l := pyStrip line
  match h : l.toList with
  | [] => none
  | c :: _ =>
    if c == '#' then none
    else
      match pyWords l with
      | [] => none
      | [_] => none
      | p0 :: p1 :: rest =>
        let pts := (p1 :: rest).getLast (by simp)
        match pyParseInt pts with
        | some v => some (pyUpper p0, v)
        | none =>
          match pyFloatToInt pts with
          | some v => some (pyUpper p0, v)
          | none => none

/-- `pisteet_web.py`: `read_points_txt_bytes` after the byte decode. -/
def read_points_txt (text : String) : Dict String Int :=
  (pySplitlines text).foldl
    (fun m line => match processLine line with
      | some (c, v) => m.set c v
      | none => m)
    Dict.empty

/-- `pisteet_web.py`: one iteration of the loop in `aggregate`. -/
def aggStep (pm : Dict String Int) (st : AggResult) (r : Row) : AggResult :=
  let dk := dateKey r.dt
  let pc := (pm.get r.code).getD 0
  let inner := (st.daily_by_code.get dk).getD Dict.empty
  let d := (inner.get r.code).getD CodeStat.init
  let dNew : CodeStat := ⟨d.count + 1, pc, (d.count + 1) * pc⟩
  let t := (st.totals_by_code.get r.code).getD CodeStat.init
  let tNew : CodeStat := ⟨t.count + 1, pc, (t.count + 1) * pc⟩
  { daily_totals := st.daily_totals.set dk ((st.daily_totals.get dk).getD 0 + pc)
    daily_by_code := st.daily_by_code.set dk (inner.set r.code dNew)
    totals_by_code := st.totals_by_code.set r.code tNew
    grand_total := st.grand_total + pc }

/-- `pisteet_web.py`: `aggregate(rows, points_map)`. -/
def aggregate (rows : List Row) (pm : Dict String Int) : AggResult :=
  rows.foldl (aggStep pm) ⟨Dict.empty, Dict.empty, Dict.empty, 0⟩

end PW

/-- Sum of `f` over the values of a dict. -/
def sumWith {K V : Type} (f : V → Int) (m : Dict K V) : Int :=
  (m.map (fun p => f p.2)).sum

/-- The points value `points_map.get(code, 0)`. -/
def pmv (pm : Dict String Int) (c : String) : Int := (Dict.get pm c).getD 0

/-- The `CodeStat` stored for `c`, or the `defaultdict` default. -/
def statOf (m : Dict String CodeStat) (c : String) : CodeStat :=
  (Dict.get m c).getD CodeStat.init

/-- Invariant carried by the loop state of `aggregate`. -/
structure AggInv (pm : Dict String Int) (st : AggResult) : Prop where
  grand_daily : st.grand_total = sumWith id st.daily_totals
  grand_codes : st.grand_total = sumWith CodeStat.sum st.totals_by_code
  codes_stat : ∀ c s, Dict.get st.totals_by_code c = some s →
    s.per_code = pmv pm c ∧ s.sum = s.count * pmv pm c
  daily_stat : ∀ d inner, Dict.get st.daily_by_code d = some inner →
    ∀ c s, Dict.get inner c = some s → s.per_code = pmv pm c ∧ s.sum = s.count * pmv pm c
  counts : ∀ c, (statOf st.totals_by_code c).count
    = sumWith (fun inner => (statOf inner c).count) st.daily_by_code

/-- The inner per-day dict materialized by `daily_by_code[date_key]`. -/
def innerAt (st : AggResult) (d : String) : Dict String CodeStat :=
  (Dict.get st.daily_by_code d).getD Dict.empty

/-- The acceptance test of the loop in `read_pdf_text_bytes`:
`isinstance(txt, str) and txt.strip()`. -/
def accepts (r : Option String) : Bool :=
  match r with
  | some t => pyStrip t != ""
  | none => false

/-- One data row of the daily CSV table for key `d`. -/
def dailyRow (daily_totals : Dict String Int) (d : String) : String :=
  d ++ ";" ++ pyIntStr ((Dict.get daily_totals d).getD 0) ++ "\r\n"

/-- One data row of the detail CSV table for code `c`. -/
def detailRow (by_code : Dict String CodeStat) (c : String) : String :=
  c ++ ";" ++ pyIntStr (statOf by_code c).count ++ ";" ++ pyIntStr (statOf by_code c).per_code
    ++ ";" ++ pyIntStr (statOf by_code c).sum ++ "\r\n"

/-- A single-row input text `"<code> <dd.mm.yyyy> <hh><sep><mm>"`, the
row shape of the spec's example `AB12C 07.10.2025 21:46`. -/
def rowString (code : String) (d m y hh mi : Nat) (sep : Char) : String :=
  code ++ " " ++ pad2 d ++ "." ++ pad2 m ++ "." ++ pad4 y ++ " " ++ pad2 hh
    ++ ⟨[sep]⟩ ++ pad2 mi

/-! ### Dictionary lemmas -/

theorem Dict.get_set_self {K V : Type} [DecidableEq K] (m : Dict K V) (k : K) (v : V) :
    Dict.get (Dict.set m k v) k = some v := by
  induction m with
  | nil => simp [Dict.set, Dict.get]
  | cons p t ih =>
    obtain ⟨k', v'⟩ := p
    by_cases h : k = k'
    · simp [Dict.set, Dict.get, h]
    · simp [Dict.set, Dict.get, h, ih]

theorem Dict.get_set_ne {K V : Type} [DecidableEq K] (m : Dict K V) {k k' : K} (v : V)
    (h : k' ≠ k) : Dict.get (Dict.set m k v) k' = Dict.get m k' := by
  induction m with
  | nil => simp [Dict.set, Dict.get, h]
  | cons p t ih =>
    obtain ⟨k'', v''⟩ := p
    by_cases h2 : k = k''
    · subst h2
      simp [Dict.set, Dict.get, h]
    · simp only [Dict.set, if_neg h2, Dict.get]
      by_cases h3 : k' = k''
      · simp [h3]
      · simp [h3, ih]

theorem sumWith_set {K V : Type} [DecidableEq K] (f : V → Int) (d0 : V) (h0 : f d0 = 0)
    (m : Dict K V) (k : K) (v : V) :
    sumWith f (Dict.set m k v) = sumWith f m + f v - f ((Dict.get m k).getD d0) := by
  induction m with
  | nil => simp [Dict.set, Dict.get, sumWith, h0]
  | cons p t ih =>
    obtain ⟨k', v'⟩ := p
    by_cases h : k = k'
    · simp [Dict.set, Dict.get, h, sumWith]
      ring
    · simp only [Dict.set, if_neg h, Dict.get, if_neg (fun e => h e), sumWith, List.map_cons,
        List.sum_cons] at *
      omega

/-! ### Aggregate invariants -/

theorem aggInv_init (pm : Dict String Int) :
    AggInv pm ⟨Dict.empty, Dict.empty, Dict.empty, 0⟩ := by
  refine ⟨rfl, rfl, ?_, ?_, ?_⟩
  · intro c s h; simp [Dict.get, Dict.empty] at h
  · intro d inner h; simp [Dict.get, Dict.empty] at h
  · intro c; simp [statOf, Dict.get, Dict.empty, sumWith, CodeStat.init]

theorem aggStep_eq (pm : Dict String Int) (st : AggResult) (r : Row) :
    aggStep pm st r = ⟨
      Dict.set st.daily_totals (dateKey r.dt)
        ((Dict.get st.daily_totals (dateKey r.dt)).getD 0 + pmv pm r.code),
      Dict.set st.daily_by_code (dateKey r.dt)
        (Dict.set (innerAt st (dateKey r.dt)) r.code
          ⟨(statOf (innerAt st (dateKey r.dt)) r.code).count + 1, pmv pm r.code,
            ((statOf (innerAt st (dateKey r.dt)) r.code).count + 1) * pmv pm r.code⟩),
      Dict.set st.totals_by_code r.code
        ⟨(statOf st.totals_by_code r.code).count + 1, pmv pm r.code,
          ((statOf st.totals_by_code r.code).count + 1) * pmv pm r.code⟩,
      st.grand_total + pmv pm r.code⟩ := rfl

theorem statOf_empty (c : String) : statOf Dict.empty c = CodeStat.init := rfl

theorem statOf_set_self (m : Dict String CodeStat) (k : String) (v : CodeStat) :
    statOf (Dict.set m k v) k = v := by
  simp [statOf, Dict.get_set_self]

theorem statOf_set_ne (m : Dict String CodeStat) (k : String) (v : CodeStat) {c : String}
    (h : c ≠ k) : statOf (Dict.set m k v) c = statOf m c := by
  simp [statOf, Dict.get_set_ne _ _ h]

theorem aggInv_step (pm : Dict String Int) (st : AggResult) (r : Row)
    (h : AggInv pm st) : AggInv pm (aggStep pm st r) := by
  obtain ⟨hgd, hgc, hcs, hds, hcnt⟩ := h
  rw [aggStep_eq]
  constructor
  · -- grand_daily
    simp only
    rw [sumWith_set id 0 rfl]
    simp only [id]
    omega
  · -- grand_codes
    simp only
    rw [sumWith_set CodeStat.sum CodeStat.init rfl]
    have hsum : (statOf st.totals_by_code r.code).sum
        = (statOf st.totals_by_code r.code).count * pmv pm r.code := by
      cases hg : Dict.get st.totals_by_code r.code with
      | none => simp [statOf, hg, CodeStat.init]
      | some s => simpa [statOf, hg] using (hcs r.code s hg).2
    simp only [statOf] at hsum ⊢
    rw [hgc, hsum]
    ring
  · -- codes_stat
    intro c s hg
    simp only at hg
    by_cases hc : c = r.code
    · subst hc
      rw [Dict.get_set_self] at hg
      cases hg
      exact ⟨rfl, rfl⟩
    · rw [Dict.get_set_ne _ _ hc] at hg
      exact hcs c s hg
  · -- daily_stat
    intro d inner hg
    simp only at hg
    by_cases hd : d = dateKey r.dt
    · subst hd
      rw [Dict.get_set_self] at hg
      cases hg
      intro c s hg2
      by_cases hc : c = r.code
      · subst hc
        rw [Dict.get_set_self] at hg2
        cases hg2
        exact ⟨rfl, rfl⟩
      · rw [Dict.get_set_ne _ _ hc] at hg2
        cases hg3 : Dict.get st.daily_by_code (dateKey r.dt) with
        | none =>
          rw [innerAt, hg3] at hg2
          simp [Dict.empty, Dict.get] at hg2
        | some innerOld =>
          rw [innerAt, hg3] at hg2
          exact hds (dateKey r.dt) innerOld hg3 c s hg2
    · rw [Dict.get_set_ne _ _ hd] at hg
      exact hds d inner hg
  · -- counts
    intro c
    simp only
    rw [sumWith_set _ Dict.empty (by simp [statOf_empty, CodeStat.init])]
    by_cases hc : c = r.code
    · subst hc
      rw [show ∀ v, statOf (Dict.set st.totals_by_code r.code v) r.code = v from
        fun v => by simp [statOf, Dict.get_set_self]]
      rw [show ∀ v, statOf (Dict.set (innerAt st (dateKey r.dt)) r.code v) r.code = v from
        fun v => by simp [statOf, Dict.get_set_self]]
      have := hcnt r.code
      simp only [innerAt]
      omega
    · rw [show ∀ v, statOf (Dict.set st.totals_by_code r.code v) c
          = statOf st.totals_by_code c from
        fun v => by simp [statOf, Dict.get_set_ne _ _ hc]]
      rw [show ∀ v, statOf (Dict.set (innerAt st (dateKey r.dt)) r.code v) c
          = statOf (innerAt st (dateKey r.dt)) c from
        fun v => by simp [statOf, Dict.get_set_ne _ _ hc]]
      have := hcnt c
      simp only [innerAt]
      omega

theorem aggInv_foldl (pm : Dict String Int) (rows : List Row) (st : AggResult)
    (h : AggInv pm st) : AggInv pm (rows.foldl (aggStep pm) st) := by
  induction rows generalizing st with
  | nil => exact h
  | cons r rest ih => exact ih _ (aggInv_step pm st r h)

theorem aggregate_inv (rows : List Row) (pm : Dict String Int) :
    AggInv pm (aggregate rows pm) :=
  aggInv_foldl pm rows _ (aggInv_init pm)

/-! ### Claims about `aggregate` -/

/-- C3: for every list of records and every points table, the grand total
returned by `aggregate` equals the sum of all values of the returned
daily-totals mapping, and also equals the sum of the `sum` fields of all
entries of the returned totals-by-code mapping. -/
theorem aggregate_grand_total_consistent (rows : List Row) (pm : Dict String Int) :
    (aggregate rows pm).grand_total = sumWith id (aggregate rows pm).daily_totals
  ∧ (aggregate rows pm).grand_total
      = sumWith CodeStat.sum (aggregate rows pm).totals_by_code :=
  ⟨(aggregate_inv rows pm).grand_daily, (aggregate_inv rows pm).grand_codes⟩

/-- C4: every `CodeStat` entry present in the per-day and overall
per-code mappings returned by `aggregate` satisfies
`sum == count * per_code`. -/
theorem aggregate_stat_sum (rows : List Row) (pm : Dict String Int) :
    (∀ d inner, Dict.get (aggregate rows pm).daily_by_code d = some inner →
      ∀ c s, Dict.get inner c = some s → s.sum = s.count * s.per_code)
  ∧ (∀ c s, Dict.get (aggregate rows pm).totals_by_code c = some s →
      s.sum = s.count * s.per_code) := by
  constructor
  · intro d inner hd c s hc
    obtain ⟨h1, h2⟩ := (aggregate_inv rows pm).daily_stat d inner hd c s hc
    rw [h2, h1]
  · intro c s hc
    obtain ⟨h1, h2⟩ := (aggregate_inv rows pm).codes_stat c s hc
    rw [h2, h1]

theorem aggregate_stat_sum_witness :
    (Dict.get (aggregate [⟨"XY789", ⟨2024, 1, 1, 9, 0⟩⟩, ⟨"XY789", ⟨2024, 1, 1, 10, 0⟩⟩]
        [("XY789", 5)]).totals_by_code "XY789" = some ⟨2, 5, 10⟩)
  ∧ (10 : Int) = 2 * 5 :=
  ⟨rfl, (aggregate_stat_sum [⟨"XY789", ⟨2024, 1, 1, 9, 0⟩⟩, ⟨"XY789", ⟨2024, 1, 1, 10, 0⟩⟩]
      [("XY789", 5)]).2 "XY789" ⟨2, 5, 10⟩ rfl⟩

/-- C5: for every list of records, points table and code `c`, the count
recorded for `c` in the totals-by-code mapping equals the sum over all
dates of the count recorded for `c` on that date (0 where absent). -/
theorem aggregate_counts_consistent (rows : List Row) (pm : Dict String Int) (c : String) :
    (statOf (aggregate rows pm).totals_by_code c).count
  = sumWith (fun inner => (statOf inner c).count) (aggregate rows pm).daily_by_code :=
  (aggregate_inv rows pm).counts c

theorem aggregate_append_one (rows : List Row) (r : Row) (pm : Dict String Int) :
    aggregate (rows ++ [r]) pm = aggStep pm (aggregate rows pm) r := by
  unfold aggregate
  rw [List.foldl_append]
  rfl

/-- C8: a record whose code is absent from the points table contributes
exactly 0 points everywhere: appending such a record leaves the grand
total, every daily total, and every `sum` field of the per-day and
overall per-code mappings unchanged; only its counts increase (by one at
its own code), and its `per_code` is recorded as 0.  (`aggregate` is
total — an unknown code cannot raise, which the model reflects by
returning an `AggResult` for every input.) -/
theorem aggregate_unknown_code (rows : List Row) (r : Row) (pm : Dict String Int)
    (h : Dict.get pm r.code = none) :
    (aggregate (rows ++ [r]) pm).grand_total = (aggregate rows pm).grand_total
  ∧ (∀ d, (Dict.get (aggregate (rows ++ [r]) pm).daily_totals d).getD 0
        = (Dict.get (aggregate rows pm).daily_totals d).getD 0)
  ∧ (∀ d c, (statOf (innerAt (aggregate (rows ++ [r]) pm) d) c).sum
        = (statOf (innerAt (aggregate rows pm) d) c).sum)
  ∧ (∀ c, (statOf (aggregate (rows ++ [r]) pm).totals_by_code c).sum
        = (statOf (aggregate rows pm).totals_by_code c).sum)
  ∧ (statOf (aggregate (rows ++ [r]) pm).totals_by_code r.code).count
      = (statOf (aggregate rows pm).totals_by_code r.code).count + 1
  ∧ (statOf (aggregate (rows ++ [r]) pm).totals_by_code r.code).per_code = 0 := by
  have hpc : pmv pm r.code = 0 := by simp [pmv, h]
  have inv := aggregate_inv rows pm
  rw [aggregate_append_one, aggStep_eq]
  refine ⟨?_, ?_, ?_, ?_, ?_, ?_⟩
  · simp only
    rw [hpc, add_zero]
  · intro d
    simp only
    by_cases hd : d = dateKey r.dt
    · subst hd
      rw [Dict.get_set_self]
      simp [hpc]
    · rw [Dict.get_set_ne _ _ hd]
  · intro d c
    simp only [innerAt]
    by_cases hd : d = dateKey r.dt
    · subst hd
      rw [Dict.get_set_self]
      simp only [Option.getD_some]
      by_cases hc : c = r.code
      · subst hc
        rw [statOf_set_self]
        simp only [hpc, mul_zero]
        cases hg : Dict.get (aggregate rows pm).daily_by_code (dateKey r.dt) with
        | none => simp [innerAt, hg, statOf, Dict.empty, Dict.get, CodeStat.init]
        | some innerOld =>
          cases hg2 : Dict.get innerOld r.code with
          | none => simp [innerAt, hg, statOf, hg2, CodeStat.init]
          | some s =>
            have := (inv.daily_stat (dateKey r.dt) innerOld hg r.code s hg2).2
            rw [hpc, mul_zero] at this
            simp [innerAt, hg, statOf, hg2, this]
      · rw [statOf_set_ne _ _ _ hc]
    · rw [Dict.get_set_ne _ _ hd]
  · intro c
    simp only
    by_cases hc : c = r.code
    · subst hc
      rw [statOf_set_self]
      simp only [hpc, mul_zero]
      cases hg : Dict.get (aggregate rows pm).totals_by_code r.code with
      | none => simp [statOf, hg, CodeStat.init]
      | some s =>
        have := (inv.codes_stat r.code s hg).2
        rw [hpc, mul_zero] at this
        simp [statOf, hg, this]
    · rw [statOf_set_ne _ _ _ hc]
  · simp only
    rw [statOf_set_self]
  · simp only
    rw [statOf_set_self]
    exact hpc

theorem aggregate_unknown_code_witness :
    (Dict.get [("XY789", (5 : Int))] "AB12C" = none)
  ∧ ((aggregate ([⟨"XY789", ⟨2024, 1, 1, 9, 0⟩⟩] ++ [⟨"AB12C", ⟨2024, 1, 2, 3, 4⟩⟩])
        [("XY789", 5)]).grand_total
      = (aggregate [⟨"XY789", ⟨2024, 1, 1, 9, 0⟩⟩] [("XY789", 5)]).grand_total
  ∧ (∀ d, (Dict.get (aggregate ([⟨"XY789", ⟨2024, 1, 1, 9, 0⟩⟩]
          ++ [⟨"AB12C", ⟨2024, 1, 2, 3, 4⟩⟩]) [("XY789", 5)]).daily_totals d).getD 0
        = (Dict.get (aggregate [⟨"XY789", ⟨2024, 1, 1, 9, 0⟩⟩]
            [("XY789", 5)]).daily_totals d).getD 0)
  ∧ (∀ d c, (statOf (innerAt (aggregate ([⟨"XY789", ⟨2024, 1, 1, 9, 0⟩⟩]
          ++ [⟨"AB12C", ⟨2024, 1, 2, 3, 4⟩⟩]) [("XY789", 5)]) d) c).sum
        = (statOf (innerAt (aggregate [⟨"XY789", ⟨2024, 1, 1, 9, 0⟩⟩] [("XY789", 5)]) d) c).sum)
  ∧ (∀ c, (statOf (aggregate ([⟨"XY789", ⟨2024, 1, 1, 9, 0⟩⟩]
          ++ [⟨"AB12C", ⟨2024, 1, 2, 3, 4⟩⟩]) [("XY789", 5)]).totals_by_code c).sum
        = (statOf (aggregate [⟨"XY789", ⟨2024, 1, 1, 9, 0⟩⟩] [("XY789", 5)]).totals_by_code c).sum)
  ∧ (statOf (aggregate ([⟨"XY789", ⟨2024, 1, 1, 9, 0⟩⟩]
        ++ [⟨"AB12C", ⟨2024, 1, 2, 3, 4⟩⟩]) [("XY789", 5)]).totals_by_code "AB12C").count
      = (statOf (aggregate [⟨"XY789", ⟨2024, 1, 1, 9, 0⟩⟩] [("XY789", 5)]).totals_by_code
          "AB12C").count + 1
  ∧ (statOf (aggregate ([⟨"XY789", ⟨2024, 1, 1, 9, 0⟩⟩]
        ++ [⟨"AB12C", ⟨2024, 1, 2, 3, 4⟩⟩]) [("XY789", 5)]).totals_by_code
        "AB12C").per_code = 0) :=
  ⟨rfl, aggregate_unknown_code [⟨"XY789", ⟨2024, 1, 1, 9, 0⟩⟩]
    ⟨"AB12C", ⟨2024, 1, 2, 3, 4⟩⟩ [("XY789", 5)] rfl⟩

/-! ### Claim about the extraction fallback loop -/

/-- C2: over the results of the three strategies in their fixed order,
the extractor returns the first result that succeeded with a
non-blank-after-strip string (and that result is non-blank), and raises
exactly when all three results failed or were blank — it never returns
an empty result silently. -/
theorem read_pdf_text_spec (r1 r2 r3 : Option String) :
    match read_pdf_text_bytes r1 r2 r3 with
    | .ok t => pyStrip t ≠ "" ∧
        ((accepts r1 = true ∧ r1 = some t)
          ∨ (accepts r1 = false ∧ accepts r2 = true ∧ r2 = some t)
          ∨ (accepts r1 = false ∧ accepts r2 = false ∧ accepts r3 = true ∧ r3 = some t))
    | .error _ => accepts r1 = false ∧ accepts r2 = false ∧ accepts r3 = false := by
  rcases r1 with _ | t1 <;> rcases r2 with _ | t2 <;> rcases r3 with _ | t3 <;>
    simp only [read_pdf_text_bytes, read_pdf_text_list, accepts] <;>
    first
    | (split_ifs <;> simp_all [bne])
    | simp_all [bne]

/-! ### Claim C10: the two files' pipeline functions agree -/

/-- C10: `parse_pdf_rows`, `read_points_txt_bytes` (modulo the byte
decode, i.e. on the decoded text) and `aggregate` are extensionally
equal between `pisteet3_web.py` and `pisteet_web.py` — the two files
contain identical copies of these functions. -/
theorem scanRows_eq (fuel : Nat) : ∀ prev l, PW.scanRows fuel prev l = scanRows fuel prev l := by
  induction fuel with
  | zero => intro prev l; rfl
  | succ n ih =>
    intro prev l
    cases l with
    | nil => rfl
    | cons c rest =>
      simp only [PW.scanRows, scanRows]
      rw [show PW.matchRowAt = matchRowAt from rfl]
      cases matchRowAt prev (c :: rest) with
      | none => exact ih (some c) rest
      | some t =>
        obtain ⟨m, k, lc⟩ := t
        simp only
        rw [ih]

theorem pipeline_functions_equiv :
    (∀ text, parse_pdf_rows text = PW.parse_pdf_rows text)
  ∧ (∀ text, read_points_txt text = PW.read_points_txt text)
  ∧ (∀ rows pm, aggregate rows pm = PW.aggregate rows pm) := by
  refine ⟨fun text => ?_, fun _ => rfl, fun _ _ => rfl⟩
  unfold parse_pdf_rows PW.parse_pdf_rows PW.finditer finditer
  rw [scanRows_eq, show PW.rowOfMatch = rowOfMatch from rfl]

/-! ### Claim C7: points-table loading -/

theorem foldl_set_get (ps : List (String × Int)) : ∀ (m : Dict String Int) (c : String),
    Dict.get (ps.foldl (fun m p => Dict.set m p.1 p.2) m) c
      = (((ps.filter (fun p => p.1 = c)).getLast?.map Prod.snd).orElse
          (fun _ => Dict.get m c)) := by
  induction ps with
  | nil => intro m c; simp
  | cons p t ih =>
    intro m c
    simp only [List.foldl_cons, ih, List.filter_cons]
    by_cases hp : p.1 = c
    · simp only [hp]
      cases hft : t.filter (fun q => decide (q.1 = c)) with
      | nil =>
        simp [hft, ← hp, Dict.get_set_self, Option.orElse]
      | cons q qs =>
        obtain ⟨x, hx⟩ := Option.isSome_iff_exists.mp
          (List.getLast?_isSome.mpr (List.cons_ne_nil q qs))
        simp [hft, hx, Option.orElse]
    · have hp2 : (decide (p.1 = c)) = false := by simp [hp]
      simp only [hp2, Bool.false_eq_true, if_false]
      rw [Dict.get_set_ne _ _ (fun e => hp e.symm)]

theorem read_points_foldl (lines : List String) : ∀ m : Dict String Int,
    lines.foldl (fun m line => match processLine line with
        | some (c, v) => Dict.set m c v
        | none => m) m
      = (lines.filterMap processLine).foldl (fun m p => Dict.set m p.1 p.2) m := by
  induction lines with
  | nil => intro m; rfl
  | cons l t ih =>
    intro m
    cases hl : processLine l with
    | none => simp [List.foldl_cons, hl, List.filterMap_cons, ih]
    | some p =>
      obtain ⟨c, v⟩ := p
      simp [List.foldl_cons, hl, List.filterMap_cons, ih]

/-- C7: the loaded points table maps each code to the value of the last
line that survives the per-line processing for that code (strip; skip
blank/`#` lines; split on whitespace runs; skip lines with fewer than two
tokens; uppercase the first token; parse the last token as int, else as a
truncated float, else skip), so a later line for the same code overwrites
an earlier one.  The concrete conjuncts exercise each rule: the spec's
last-token/label example and overwrite, float truncation toward zero,
comment/blank/short/unparsable-line skipping, and code upper-casing. -/
theorem read_points_txt_spec :
    (∀ text c, Dict.get (read_points_txt text) c
      = ((((pySplitlines text).filterMap processLine).filter
            (fun p => p.1 = c)).getLast?.map Prod.snd))
  ∧ read_points_txt "AB12C  label  10\nAB12C 20" = [("AB12C", 20)]
  ∧ read_points_txt "# comment\n\nab12c 2.9\nxx1 foo -2.9\nshort\nbad x\ne12 1e3"
      = [("AB12C", 2), ("XX1", -2), ("E12", 1000)] := by
  refine ⟨fun text c => ?_, by decide, by decide⟩
  rw [read_points_txt, read_points_foldl, foldl_set_get]
  cases ((pySplitlines text).filterMap processLine).filter (fun p => p.1 = c) |>.getLast? with
  | none => simp [Dict.empty, Dict.get, Option.orElse]
  | some p => simp [Option.orElse]

/-! ### Claim C9: CSV exporters -/

theorem charListLe_iff (as : List Char) : ∀ bs : List Char,
    charListLe as bs = true ↔ ¬ bs < as := by
  induction as with
  | nil =>
    intro bs
    constructor
    · intro _ h2
      cases bs <;> nomatch h2
    · intro _
      rfl
  | cons a as ih =>
    intro bs
    cases bs with
    | nil =>
      simp only [charListLe]
      constructor
      · intro h
        exact absurd h (by simp)
      · intro h
        exact absurd List.Lex.nil h
    | cons b bs =>
      simp only [charListLe]
      rcases lt_trichotomy a b with hab | hab | hab
      · rw [if_pos hab]
        simp only [true_iff]
        intro h
        cases h with
        | cons h2 => exact absurd hab (lt_irrefl _)
        | rel h2 => exact absurd h2 (asymm hab)
      · subst hab
        rw [if_neg (lt_irrefl a), if_neg (lt_irrefl a)]
        rw [ih bs]
        constructor
        · intro h h2
          cases h2 with
          | cons h3 => exact h h3
          | rel h3 => exact absurd h3 (lt_irrefl a)
        · intro h h2
          exact h (List.Lex.cons h2)
      · rw [if_neg (asymm hab), if_pos hab]
        simp only [Bool.false_eq_true, false_iff, not_not]
        exact List.Lex.rel hab

theorem pyStrLe_iff (s t : String) : pyStrLe s t = true ↔ s ≤ t := by
  rw [pyStrLe, charListLe_iff, ← String.lt_iff_toList_lt, not_lt]

theorem ordInsert_perm (x : String) (l : List String) :
    List.Perm (ordInsert x l) (x :: l) := by
  induction l with
  | nil => rfl
  | cons y ys ih =>
    simp only [ordInsert]
    by_cases h : pyStrLe x y
    · rw [if_pos h]
    · rw [if_neg h]
      exact (ih.cons y).trans (List.Perm.swap x y ys)

theorem pySorted_perm (l : List String) : List.Perm (pySorted l) l := by
  induction l with
  | nil => rfl
  | cons x xs ih => exact (ordInsert_perm x (pySorted xs)).trans (ih.cons x)

theorem sorted_ordInsert (x : String) (l : List String) (h : l.Sorted (· ≤ ·)) :
    (ordInsert x l).Sorted (· ≤ ·) := by
  induction l with
  | nil => simp [ordInsert]
  | cons y ys ih =>
    obtain ⟨hy, hys⟩ := List.sorted_cons.mp h
    simp only [ordInsert]
    by_cases hxy : pyStrLe x y
    · rw [if_pos hxy]
      refine List.sorted_cons.mpr ⟨?_, h⟩
      intro b hb
      rcases List.mem_cons.mp hb with rfl | hb
      · exact (pyStrLe_iff x b).mp hxy
      · exact le_trans ((pyStrLe_iff x y).mp hxy) (hy b hb)
    · rw [if_neg hxy]
      refine List.sorted_cons.mpr ⟨?_, ih hys⟩
      intro b hb
      rcases List.mem_cons.mp ((ordInsert_perm x ys).subset hb) with rfl | hb
      · exact le_of_not_le (fun h2 => hxy ((pyStrLe_iff b y).mpr h2))
      · exact hy b hb

theorem sorted_pySorted (l : List String) : (pySorted l).Sorted (· ≤ ·) := by
  induction l with
  | nil => simp [pySorted]
  | cons x xs ih => exact sorted_ordInsert x (pySorted xs) ih

theorem pyIsDigit_digitChar {k : Nat} (h : k < 10) : pyIsDigit (Nat.digitChar k) = true := by
  interval_cases k <;> decide

theorem natStrAux_digits : ∀ fuel n, ∀ c ∈ natStrAux fuel n, pyIsDigit c = true := by
  intro fuel
  induction fuel with
  | zero => intro n c h; nomatch h
  | succ f ih =>
    intro n c h
    simp only [natStrAux] at h
    by_cases hn : n < 10
    · rw [if_pos hn] at h
      simp only [List.mem_singleton] at h
      subst h
      exact pyIsDigit_digitChar hn
    · rw [if_neg hn] at h
      rcases List.mem_append.mp h with h2 | h2
      · exact ih _ c h2
      · simp only [List.mem_singleton] at h2
        subst h2
        exact pyIsDigit_digitChar (Nat.mod_lt _ (by norm_num))

theorem digit_not_special {c : Char} (h : pyIsDigit c = true) :
    (c == ';' || c == '"' || c == '\r' || c == '\n') = false := by
  by_contra h2
  rw [Bool.not_eq_false] at h2
  simp only [Bool.or_eq_true, beq_iff_eq] at h2
  rcases h2 with ((h3 | h3) | h3) | h3 <;> (subst h3; revert h; decide)

theorem csvNeedsQuote_pyIntStr (v : Int) : csvNeedsQuote (pyIntStr v) = false := by
  have hnat : ∀ n : Nat, csvNeedsQuote (pyNatStr n) = false := by
    intro n
    rw [csvNeedsQuote, List.any_eq_false]
    intro c hc
    simp [digit_not_special (natStrAux_digits _ _ c hc)]
  rw [pyIntStr]
  split_ifs with hv
  · rw [show ("-" ++ pyNatStr v.natAbs : String) = ⟨'-' :: natStrAux (v.natAbs + 1) v.natAbs⟩
      from rfl]
    rw [csvNeedsQuote, List.any_eq_false]
    intro c hc
    rcases List.mem_cons.mp hc with rfl | hc2
    · decide
    · simp [digit_not_special (natStrAux_digits _ _ c hc2)]
  · exact hnat _

/-- C9: both exporters emit the UTF-8 encoding of a semicolon-delimited
table: the fixed header row, then one row per key, the keys in strictly
ascending code-point order (a permutation of the mapping's keys, sorted
ascending).  The hypotheses say the keys contain no character forcing
CSV quoting (true of every key the pipeline produces: date strings and
code tokens). -/
theorem exporters_spec (dtm : Dict String Int) (bc : Dict String CodeStat)
    (hdt : ∀ k ∈ Dict.keys dtm, csvNeedsQuote k = false)
    (hbc : ∀ k ∈ Dict.keys bc, csvNeedsQuote k = false) :
    (to_csv_bytes_daily dtm = (toCsvDailyText dtm).toUTF8
      ∧ toCsvDailyText dtm
          = "Paiva;Pisteet\r\n" ++ String.join ((pySorted (Dict.keys dtm)).map (dailyRow dtm))
      ∧ (pySorted (Dict.keys dtm)).Sorted (· ≤ ·)
      ∧ List.Perm (pySorted (Dict.keys dtm)) (Dict.keys dtm))
  ∧ (to_csv_bytes_day_detail bc = (toCsvDetailText bc).toUTF8
      ∧ toCsvDetailText bc
          = "Koodi;Kpl;Pist./koodi;Pisteet yht.\r\n"
              ++ String.join ((pySorted (Dict.keys bc)).map (detailRow bc))
      ∧ (pySorted (Dict.keys bc)).Sorted (· ≤ ·)
      ∧ List.Perm (pySorted (Dict.keys bc)) (Dict.keys bc)) := by
  refine ⟨⟨rfl, ?_, sorted_pySorted _, pySorted_perm _⟩,
    ⟨rfl, ?_, sorted_pySorted _, pySorted_perm _⟩⟩
  · have hrows : ∀ d ∈ pySorted (Dict.keys dtm),
        writerow [d, pyIntStr ((Dict.get dtm d).getD 0)] = dailyRow dtm d := by
      intro d hd
      have hc := hdt d ((pySorted_perm _).subset hd)
      simp [writerow, joinSemi, csvField, hc, csvNeedsQuote_pyIntStr, dailyRow,
        String.append_assoc]
    rw [toCsvDailyText, List.map_congr_left hrows,
      show writerow ["Paiva", "Pisteet"] = "Paiva;Pisteet\r\n" from by decide]
  · have hrows : ∀ c ∈ pySorted (Dict.keys bc),
        writerow [c, pyIntStr (statOf bc c).count, pyIntStr (statOf bc c).per_code,
          pyIntStr (statOf bc c).sum] = detailRow bc c := by
      intro c hcm
      have hc := hbc c ((pySorted_perm _).subset hcm)
      simp [writerow, joinSemi, csvField, hc, csvNeedsQuote_pyIntStr, detailRow,
        String.append_assoc]
    show writerow ["Koodi", "Kpl", "Pist./koodi", "Pisteet yht."]
        ++ String.join ((pySorted (Dict.keys bc)).map
          (fun c => writerow [c, pyIntStr (statOf bc c).count,
            pyIntStr (statOf bc c).per_code, pyIntStr (statOf bc c).sum])) = _
    rw [List.map_congr_left hrows,
      show writerow ["Koodi", "Kpl", "Pist./koodi", "Pisteet yht."]
        = "Koodi;Kpl;Pist./koodi;Pisteet yht.\r\n" from by decide]

theorem exporters_spec_witness :
    (∀ k ∈ Dict.keys ([("2024-01-02", 3), ("2024-01-01", 7)] : Dict String Int),
      csvNeedsQuote k = false)
  ∧ (∀ k ∈ Dict.keys ([("B1111", ⟨1, 2, 2⟩), ("A2222", ⟨2, 3, 6⟩)] : Dict String CodeStat),
      csvNeedsQuote k = false)
  ∧ ((to_csv_bytes_daily [("2024-01-02", 3), ("2024-01-01", 7)]
        = (toCsvDailyText [("2024-01-02", 3), ("2024-01-01", 7)]).toUTF8
      ∧ toCsvDailyText [("2024-01-02", 3), ("2024-01-01", 7)]
          = "Paiva;Pisteet\r\n"
            ++ String.join ((pySorted (Dict.keys
                  ([("2024-01-02", 3), ("2024-01-01", 7)] : Dict String Int))).map
                (dailyRow [("2024-01-02", 3), ("2024-01-01", 7)]))
      ∧ (pySorted (Dict.keys
            ([("2024-01-02", 3), ("2024-01-01", 7)] : Dict String Int))).Sorted (· ≤ ·)
      ∧ List.Perm (pySorted (Dict.keys
            ([("2024-01-02", 3), ("2024-01-01", 7)] : Dict String Int)))
          (Dict.keys ([("2024-01-02", 3), ("2024-01-01", 7)] : Dict String Int)))
    ∧ (to_csv_bytes_day_detail [("B1111", ⟨1, 2, 2⟩), ("A2222", ⟨2, 3, 6⟩)]
        = (toCsvDetailText [("B1111", ⟨1, 2, 2⟩), ("A2222", ⟨2, 3, 6⟩)]).toUTF8
      ∧ toCsvDetailText [("B1111", ⟨1, 2, 2⟩), ("A2222", ⟨2, 3, 6⟩)]
          = "Koodi;Kpl;Pist./koodi;Pisteet yht.\r\n"
            ++ String.join ((pySorted (Dict.keys
                  ([("B1111", ⟨1, 2, 2⟩), ("A2222", ⟨2, 3, 6⟩)] : Dict String CodeStat))).map
                (detailRow [("B1111", ⟨1, 2, 2⟩), ("A2222", ⟨2, 3, 6⟩)]))
      ∧ (pySorted (Dict.keys
            ([("B1111", ⟨1, 2, 2⟩), ("A2222", ⟨2, 3, 6⟩)] : Dict String CodeStat))).Sorted (· ≤ ·)
      ∧ List.Perm (pySorted (Dict.keys
            ([("B1111", ⟨1, 2, 2⟩), ("A2222", ⟨2, 3, 6⟩)] : Dict String CodeStat)))
          (Dict.keys ([("B1111", ⟨1, 2, 2⟩), ("A2222", ⟨2, 3, 6⟩)] : Dict String CodeStat)))) :=
  ⟨by decide, by decide,
    exporters_spec [("2024-01-02", 3), ("2024-01-01", 7)]
      [("B1111", ⟨1, 2, 2⟩), ("A2222", ⟨2, 3, 6⟩)] (by decide) (by decide)⟩

/-! ### Claim C1: invalid timestamps abort the parse -/

theorem mapM_except_spec {α β : Type} (f : α → Except String β) (l : List α) :
    match l.mapM f with
    | .ok bs => bs.length = l.length ∧ ∀ a ∈ l, ∃ b, f a = .ok b
    | .error e => ∃ a ∈ l, f a = .error e := by
  induction l with
  | nil => exact ⟨rfl, fun a h => absurd h (List.not_mem_nil a)⟩
  | cons a t ih =>
    rw [List.mapM_cons]
    cases hfa : f a with
    | error e =>
      simp only [hfa, bind, Except.bind]
      exact ⟨a, List.mem_cons_self a t, hfa⟩
    | ok b =>
      simp only [hfa, bind, Except.bind]
      cases hmt : t.mapM f with
      | error e =>
        rw [hmt] at ih
        simp only [hmt]
        obtain ⟨a2, ha2, he2⟩ := ih
        exact ⟨a2, List.mem_cons_of_mem a ha2, he2⟩
      | ok bs =>
        rw [hmt] at ih
        simp only [hmt, pure, Except.pure]
        obtain ⟨hlen, hall⟩ := ih
        refine ⟨by simp [hlen], ?_⟩
        intro a2 ha2
        rcases List.mem_cons.mp ha2 with rfl | ha2
        · exact ⟨b, hfa⟩
        · exact hall a2 ha2

/-- C1, amended: `parse_pdf_rows` yields one record per regex match when
every match's date/time is a valid calendar timestamp; but a match whose
date/time is invalid under both separator formats raises the second
`strptime`'s `ValueError` out of the function, aborting the whole parse
(no records are returned, not even for the other matches). -/
theorem parse_pdf_rows_amended (text : String) :
    match parse_pdf_rows text with
    | .ok rows => rows.length = (finditer text).length
        ∧ ∀ m ∈ finditer text, ∃ row, rowOfMatch m = .ok row
    | .error e => ∃ m ∈ finditer text, rowOfMatch m = .error e := by
  have h := mapM_except_spec rowOfMatch (finditer text)
  unfold parse_pdf_rows
  split
  next bs hm =>
    rw [hm] at h
    exact h
  next e hm =>
    rw [hm] at h
    exact h

theorem parse_pdf_rows_amended_witness :
    match parse_pdf_rows "XY789 01.01.2024 09.00" with
    | .ok rows => rows.length = (finditer "XY789 01.01.2024 09.00").length
        ∧ ∀ m ∈ finditer "XY789 01.01.2024 09.00", ∃ row, rowOfMatch m = .ok row
    | .error e => ∃ m ∈ finditer "XY789 01.01.2024 09.00", rowOfMatch m = .error e :=
  parse_pdf_rows_amended "XY789 01.01.2024 09.00"

/-- C1, counterexample to the claim as stated: the text contains two
regex matches, the first with the invalid calendar date 30.02.2024 and
the second fully valid; the claim says the invalid row is dropped
silently and the rest is still parsed (the result would be a one-row
success), but `parse_pdf_rows` raises the uncaught `ValueError` instead,
aborting the whole parse. -/
theorem parse_pdf_rows_invalid_aborts :
    parse_pdf_rows "AB12C 30.02.2024 12.00\nXY789 01.01.2024 09.00"
      = Except.error "ValueError"
  ∧ parse_pdf_rows "XY789 01.01.2024 09.00"
      = Except.ok [⟨"XY789", ⟨2024, 1, 1, 9, 0⟩⟩] :=
  ⟨rfl, rfl⟩

/-! ### Claim C6: time-separator equivalence -/

theorem charVal_digitChar {k : Nat} (h : k < 10) : charVal (Nat.digitChar k) = k := by
  interval_cases k <;> decide

theorem pyIsSpace_of_digit {c : Char} (h : pyIsDigit c = true) : pyIsSpace c = false := by
  by_contra h2
  rw [Bool.not_eq_false] at h2
  simp only [pyIsSpace, Bool.or_eq_true, beq_iff_eq] at h2
  rcases h2 with ((((h3 | h3) | h3) | h3) | h3) | h3 <;> (subst h3; revert h; decide)

theorem digit_ne_colon {c : Char} (h : pyIsDigit c = true) : ¬ c = ':' := by
  intro h2
  subst h2
  revert h
  decide

theorem matchRowAt_single (c1 c2 c3 c4 c5 d1 d2 m1 m2 y1 y2 y3 y4 h1 h2 n1 n2 sep : Char)
    (hc1 : isCodeChar c1 = true) (hc2 : isCodeChar c2 = true) (hc3 : isCodeChar c3 = true)
    (hc4 : isCodeChar c4 = true) (hc5 : isCodeChar c5 = true)
    (hd1 : pyIsDigit d1 = true) (hd2 : pyIsDigit d2 = true)
    (hm1 : pyIsDigit m1 = true) (hm2 : pyIsDigit m2 = true)
    (hy1 : pyIsDigit y1 = true) (hy2 : pyIsDigit y2 = true)
    (hy3 : pyIsDigit y3 = true) (hy4 : pyIsDigit y4 = true)
    (hh1 : pyIsDigit h1 = true) (hh2 : pyIsDigit h2 = true)
    (hn1 : pyIsDigit n1 = true) (hn2 : pyIsDigit n2 = true)
    (hsep : sep = ':' ∨ sep = '.') :
    matchRowAt none (c1 :: c2 :: c3 :: c4 :: c5 :: ' ' :: d1 :: d2 :: '.' :: m1 :: m2 :: '.'
        :: y1 :: y2 :: y3 :: y4 :: ' ' :: h1 :: h2 :: sep :: n1 :: [n2])
      = some (⟨⟨[c1, c2, c3, c4, c5]⟩, ⟨[d1, d2, '.', m1, m2, '.', y1, y2, y3, y4]⟩,
          ⟨[h1, h2, sep, n1, n2]⟩⟩, 21, n2) := by
  have hsepb : (sep == ':' || sep == '.') = true := by
    rcases hsep with rfl | rfl <;> decide
  simp [matchRowAt, List.takeWhile_cons, List.dropWhile_cons,
    hc1, hc2, hc3, hc4, hc5, hd1, hd2, hm1, hm2, hy1, hy2, hy3, hy4, hh1, hh2, hn1, hn2,
    hsepb, pyIsSpace_of_digit hd1, pyIsSpace_of_digit hh1,
    show pyIsSpace ' ' = true from rfl]

theorem scanRows_empty (k : Nat) (p : Option Char) : scanRows k p [] = [] := by
  cases k <;> rfl

theorem finditer_single (c1 c2 c3 c4 c5 d1 d2 m1 m2 y1 y2 y3 y4 h1 h2 n1 n2 sep : Char)
    (hc1 : isCodeChar c1 = true) (hc2 : isCodeChar c2 = true) (hc3 : isCodeChar c3 = true)
    (hc4 : isCodeChar c4 = true) (hc5 : isCodeChar c5 = true)
    (hd1 : pyIsDigit d1 = true) (hd2 : pyIsDigit d2 = true)
    (hm1 : pyIsDigit m1 = true) (hm2 : pyIsDigit m2 = true)
    (hy1 : pyIsDigit y1 = true) (hy2 : pyIsDigit y2 = true)
    (hy3 : pyIsDigit y3 = true) (hy4 : pyIsDigit y4 = true)
    (hh1 : pyIsDigit h1 = true) (hh2 : pyIsDigit h2 = true)
    (hn1 : pyIsDigit n1 = true) (hn2 : pyIsDigit n2 = true)
    (hsep : sep = ':' ∨ sep = '.') :
    finditer ⟨c1 :: c2 :: c3 :: c4 :: c5 :: ' ' :: d1 :: d2 :: '.' :: m1 :: m2 :: '.'
        :: y1 :: y2 :: y3 :: y4 :: ' ' :: h1 :: h2 :: sep :: n1 :: [n2]⟩
      = [⟨⟨[c1, c2, c3, c4, c5]⟩, ⟨[d1, d2, '.', m1, m2, '.', y1, y2, y3, y4]⟩,
          ⟨[h1, h2, sep, n1, n2]⟩⟩] := by
  show scanRows (21 + 1) none (c1 :: c2 :: c3 :: c4 :: c5 :: ' ' :: d1 :: d2 :: '.' :: m1
      :: m2 :: '.' :: y1 :: y2 :: y3 :: y4 :: ' ' :: h1 :: h2 :: sep :: n1 :: [n2]) = _
  rw [scanRows, matchRowAt_single c1 c2 c3 c4 c5 d1 d2 m1 m2 y1 y2 y3 y4 h1 h2 n1 n2 sep
    hc1 hc2 hc3 hc4 hc5 hd1 hd2 hm1 hm2 hy1 hy2 hy3 hy4 hh1 hh2 hn1 hn2 hsep]
  rfl

theorem strptime_single (d1 d2 m1 m2 y1 y2 y3 y4 h1 h2 n1 n2 sep : Char)
    (hd1 : pyIsDigit d1 = true) (hd2 : pyIsDigit d2 = true)
    (hm1 : pyIsDigit m1 = true) (hm2 : pyIsDigit m2 = true)
    (hy1 : pyIsDigit y1 = true) (hy2 : pyIsDigit y2 = true)
    (hy3 : pyIsDigit y3 = true) (hy4 : pyIsDigit y4 = true)
    (hh1 : pyIsDigit h1 = true) (hh2 : pyIsDigit h2 = true)
    (hn1 : pyIsDigit n1 = true) (hn2 : pyIsDigit n2 = true) :
    strptime ⟨[d1, d2, '.', m1, m2, '.', y1, y2, y3, y4, ' ', h1, h2, sep, n1, n2]⟩ sep
      = if validDateTime (charVal d1 * 10 + charVal d2) (charVal m1 * 10 + charVal m2)
            (charVal y1 * 1000 + charVal y2 * 100 + charVal y3 * 10 + charVal y4)
            (charVal h1 * 10 + charVal h2) (charVal n1 * 10 + charVal n2) = true
        then some ⟨charVal y1 * 1000 + charVal y2 * 100 + charVal y3 * 10 + charVal y4,
            charVal m1 * 10 + charVal m2, charVal d1 * 10 + charVal d2,
            charVal h1 * 10 + charVal h2, charVal n1 * 10 + charVal n2⟩
        else none := by
  simp [strptime, hd1, hd2, hm1, hm2, hy1, hy2, hy3, hy4, hh1, hh2, hn1, hn2]

theorem rowOfMatch_single (code : String) (d1 d2 m1 m2 y1 y2 y3 y4 h1 h2 n1 n2 sep : Char)
    (hd1 : pyIsDigit d1 = true) (hd2 : pyIsDigit d2 = true)
    (hm1 : pyIsDigit m1 = true) (hm2 : pyIsDigit m2 = true)
    (hy1 : pyIsDigit y1 = true) (hy2 : pyIsDigit y2 = true)
    (hy3 : pyIsDigit y3 = true) (hy4 : pyIsDigit y4 = true)
    (hh1 : pyIsDigit h1 = true) (hh2 : pyIsDigit h2 = true)
    (hn1 : pyIsDigit n1 = true) (hn2 : pyIsDigit n2 = true)
    (hsep : sep = ':' ∨ sep = '.')
    (hv : validDateTime (charVal d1 * 10 + charVal d2) (charVal m1 * 10 + charVal m2)
        (charVal y1 * 1000 + charVal y2 * 100 + charVal y3 * 10 + charVal y4)
        (charVal h1 * 10 + charVal h2) (charVal n1 * 10 + charVal n2) = true) :
    rowOfMatch ⟨code, ⟨[d1, d2, '.', m1, m2, '.', y1, y2, y3, y4]⟩, ⟨[h1, h2, sep, n1, n2]⟩⟩
      = .ok ⟨code, ⟨charVal y1 * 1000 + charVal y2 * 100 + charVal y3 * 10 + charVal y4,
          charVal m1 * 10 + charVal m2, charVal d1 * 10 + charVal d2,
          charVal h1 * 10 + charVal h2, charVal n1 * 10 + charVal n2⟩⟩ := by
  have htim : pyReplaceChar ⟨[h1, h2, sep, n1, n2]⟩ ':' '.' = ⟨[h1, h2, '.', n1, n2]⟩ := by
    rcases hsep with rfl | rfl <;>
      simp [pyReplaceChar, digit_ne_colon hh1, digit_ne_colon hh2,
        digit_ne_colon hn1, digit_ne_colon hn2]
  rw [rowOfMatch]
  rw [htim]
  rw [show (String.mk [d1, d2, '.', m1, m2, '.', y1, y2, y3, y4] ++ " "
      ++ String.mk [h1, h2, '.', n1, n2] : String)
    = ⟨[d1, d2, '.', m1, m2, '.', y1, y2, y3, y4, ' ', h1, h2, '.', n1, n2]⟩ from rfl]
  rw [strptime_single d1 d2 m1 m2 y1 y2 y3 y4 h1 h2 n1 n2 '.'
    hd1 hd2 hm1 hm2 hy1 hy2 hy3 hy4 hh1 hh2 hn1 hn2]
  rw [if_pos hv]

theorem mapM_singleton (f : RawMatch → Except String Row) (m : RawMatch) :
    [m].mapM f = (f m).map (fun r => [r]) := by
  cases hf : f m <;>
    simp [List.mapM, List.mapM.loop, hf, bind, Except.bind, pure, Except.pure, Except.map]

/-- C6: for every 5-character `[A-Z0-9]` code token, every date token and
every valid time of day (any date/time that forms a valid calendar
timestamp, which is what lets the row yield a record at all), parsing
the row with the `:` time separator and parsing it with the `.`
separator produce the same single record, with the same timestamp. -/
theorem parse_sep_equiv (code : String) (d m y hh mi : Nat)
    (hlen : code.length = 5) (hcode : ∀ c ∈ code.toList, isCodeChar c = true)
    (hv : validDateTime d m y hh mi = true) :
    parse_pdf_rows (rowString code d m y hh mi ':')
      = parse_pdf_rows (rowString code d m y hh mi '.')
  ∧ parse_pdf_rows (rowString code d m y hh mi ':')
      = .ok [⟨code, ⟨y, m, d, hh, mi⟩⟩] := by
  obtain ⟨data⟩ := code
  have hlen' : data.length = 5 := hlen
  obtain ⟨c1, c2, c3, c4, c5, hdata⟩ : ∃ a b c d e, data = [a, b, c, d, e] := by
    rcases data with _ | ⟨a, _ | ⟨b, _ | ⟨c, _ | ⟨d, _ | ⟨e, _ | ⟨f, t⟩⟩⟩⟩⟩⟩ <;>
      simp only [List.length_cons, List.length_nil] at hlen' <;>
      first
      | omega
      | exact ⟨_, _, _, _, _, rfl⟩
  subst hdata
  have hc1 : isCodeChar c1 = true := hcode c1 (by simp)
  have hc2 : isCodeChar c2 = true := hcode c2 (by simp)
  have hc3 : isCodeChar c3 = true := hcode c3 (by simp)
  have hc4 : isCodeChar c4 = true := hcode c4 (by simp)
  have hc5 : isCodeChar c5 = true := hcode c5 (by simp)
  have hb : (1 ≤ y ∧ y ≤ 9999) ∧ (1 ≤ m ∧ m ≤ 12) ∧ (1 ≤ d ∧ d ≤ daysInMonth y m)
      ∧ hh ≤ 23 ∧ mi ≤ 59 := by
    simpa [validDateTime, Bool.and_eq_true, decide_eq_true_eq, and_assoc] using hv
  have hdim : daysInMonth y m ≤ 31 := by
    unfold daysInMonth
    split_ifs <;> norm_num
  obtain ⟨⟨hy1b, hy2b⟩, ⟨hm1b, hm2b⟩, ⟨hd1b, hd2b⟩, hhb, hmib⟩ := hb
  have hD1 : pyIsDigit (Nat.digitChar (d / 10 % 10)) = true :=
    pyIsDigit_digitChar (Nat.mod_lt _ (by norm_num))
  have hD2 : pyIsDigit (Nat.digitChar (d % 10)) = true :=
    pyIsDigit_digitChar (Nat.mod_lt _ (by norm_num))
  have hM1 : pyIsDigit (Nat.digitChar (m / 10 % 10)) = true :=
    pyIsDigit_digitChar (Nat.mod_lt _ (by norm_num))
  have hM2 : pyIsDigit (Nat.digitChar (m % 10)) = true :=
    pyIsDigit_digitChar (Nat.mod_lt _ (by norm_num))
  have hY1 : pyIsDigit (Nat.digitChar (y / 1000 % 10)) = true :=
    pyIsDigit_digitChar (Nat.mod_lt _ (by norm_num))
  have hY2 : pyIsDigit (Nat.digitChar (y / 100 % 10)) = true :=
    pyIsDigit_digitChar (Nat.mod_lt _ (by norm_num))
  have hY3 : pyIsDigit (Nat.digitChar (y / 10 % 10)) = true :=
    pyIsDigit_digitChar (Nat.mod_lt _ (by norm_num))
  have hY4 : pyIsDigit (Nat.digitChar (y % 10)) = true :=
    pyIsDigit_digitChar (Nat.mod_lt _ (by norm_num))
  have hH1 : pyIsDigit (Nat.digitChar (hh / 10 % 10)) = true :=
    pyIsDigit_digitChar (Nat.mod_lt _ (by norm_num))
  have hH2 : pyIsDigit (Nat.digitChar (hh % 10)) = true :=
    pyIsDigit_digitChar (Nat.mod_lt _ (by norm_num))
  have hN1 : pyIsDigit (Nat.digitChar (mi / 10 % 10)) = true :=
    pyIsDigit_digitChar (Nat.mod_lt _ (by norm_num))
  have hN2 : pyIsDigit (Nat.digitChar (mi % 10)) = true :=
    pyIsDigit_digitChar (Nat.mod_lt _ (by norm_num))
  have hvd : charVal (Nat.digitChar (d / 10 % 10)) * 10 + charVal (Nat.digitChar (d % 10))
      = d := by
    rw [charVal_digitChar (Nat.mod_lt _ (by norm_num)),
      charVal_digitChar (Nat.mod_lt _ (by norm_num))]
    omega
  have hvm : charVal (Nat.digitChar (m / 10 % 10)) * 10 + charVal (Nat.digitChar (m % 10))
      = m := by
    rw [charVal_digitChar (Nat.mod_lt _ (by norm_num)),
      charVal_digitChar (Nat.mod_lt _ (by norm_num))]
    omega
  have hvy : charVal (Nat.digitChar (y / 1000 % 10)) * 1000
      + charVal (Nat.digitChar (y / 100 % 10)) * 100
      + charVal (Nat.digitChar (y / 10 % 10)) * 10 + charVal (Nat.digitChar (y % 10)) = y := by
    rw [charVal_digitChar (Nat.mod_lt _ (by norm_num)),
      charVal_digitChar (Nat.mod_lt _ (by norm_num)),
      charVal_digitChar (Nat.mod_lt _ (by norm_num)),
      charVal_digitChar (Nat.mod_lt _ (by norm_num))]
    omega
  have hvh : charVal (Nat.digitChar (hh / 10 % 10)) * 10 + charVal (Nat.digitChar (hh % 10))
      = hh := by
    rw [charVal_digitChar (Nat.mod_lt _ (by norm_num)),
      charVal_digitChar (Nat.mod_lt _ (by norm_num))]
    omega
  have hvmi : charVal (Nat.digitChar (mi / 10 % 10)) * 10 + charVal (Nat.digitChar (mi % 10))
      = mi := by
    rw [charVal_digitChar (Nat.mod_lt _ (by norm_num)),
      charVal_digitChar (Nat.mod_lt _ (by norm_num))]
    omega
  have hparse : ∀ sep : Char, sep = ':' ∨ sep = '.' →
      parse_pdf_rows (rowString ⟨[c1, c2, c3, c4, c5]⟩ d m y hh mi sep)
        = .ok [⟨⟨[c1, c2, c3, c4, c5]⟩, ⟨y, m, d, hh, mi⟩⟩] := by
    intro sep hsep
    have hrow : rowString ⟨[c1, c2, c3, c4, c5]⟩ d m y hh mi sep
        = ⟨c1 :: c2 :: c3 :: c4 :: c5 :: ' ' :: Nat.digitChar (d / 10 % 10)
            :: Nat.digitChar (d % 10) :: '.' :: Nat.digitChar (m / 10 % 10)
            :: Nat.digitChar (m % 10) :: '.' :: Nat.digitChar (y / 1000 % 10)
            :: Nat.digitChar (y / 100 % 10) :: Nat.digitChar (y / 10 % 10)
            :: Nat.digitChar (y % 10) :: ' ' :: Nat.digitChar (hh / 10 % 10)
            :: Nat.digitChar (hh % 10) :: sep :: Nat.digitChar (mi / 10 % 10)
            :: [Nat.digitChar (mi % 10)]⟩ := rfl
    rw [hrow, parse_pdf_rows,
      finditer_single c1 c2 c3 c4 c5 _ _ _ _ _ _ _ _ _ _ _ _ sep
        hc1 hc2 hc3 hc4 hc5 hD1 hD2 hM1 hM2 hY1 hY2 hY3 hY4 hH1 hH2 hN1 hN2 hsep]
    have hvcv : validDateTime
        (charVal (Nat.digitChar (d / 10 % 10)) * 10 + charVal (Nat.digitChar (d % 10)))
        (charVal (Nat.digitChar (m / 10 % 10)) * 10 + charVal (Nat.digitChar (m % 10)))
        (charVal (Nat.digitChar (y / 1000 % 10)) * 1000
          + charVal (Nat.digitChar (y / 100 % 10)) * 100
          + charVal (Nat.digitChar (y / 10 % 10)) * 10 + charVal (Nat.digitChar (y % 10)))
        (charVal (Nat.digitChar (hh / 10 % 10)) * 10 + charVal (Nat.digitChar (hh % 10)))
        (charVal (Nat.digitChar (mi / 10 % 10)) * 10 + charVal (Nat.digitChar (mi % 10)))
        = true := by
      rw [hvd, hvm, hvy, hvh, hvmi]
      exact hv
    rw [mapM_singleton, rowOfMatch_single _ _ _ _ _ _ _ _ _ _ _ _ _ sep
      hD1 hD2 hM1 hM2 hY1 hY2 hY3 hY4 hH1 hH2 hN1 hN2 hsep hvcv]
    simp only [Except.map]
    rw [hvd, hvm, hvy, hvh, hvmi]
  exact ⟨by rw [hparse ':' (Or.inl rfl), hparse '.' (Or.inr rfl)], hparse ':' (Or.inl rfl)⟩

theorem parse_sep_equiv_witness :
    rowString "AB12C" 7 10 2025 21 46 ':' = "AB12C 07.10.2025 21:46"
  ∧ rowString "AB12C" 7 10 2025 21 46 '.' = "AB12C 07.10.2025 21.46"
  ∧ ("AB12C" : String).length = 5
  ∧ (∀ c ∈ ("AB12C" : String).toList, isCodeChar c = true)
  ∧ validDateTime 7 10 2025 21 46 = true
  ∧ (parse_pdf_rows (rowString "AB12C" 7 10 2025 21 46 ':')
      = parse_pdf_rows (rowString "AB12C" 7 10 2025 21 46 '.')
    ∧ parse_pdf_rows (rowString "AB12C" 7 10 2025 21 46 ':')
      = .ok [⟨"AB12C", ⟨2025, 10, 7, 21, 46⟩⟩]) :=
  ⟨by decide, by decide, by decide, by decide, by decide,
    parse_sep_equiv "AB12C" 7 10 2025 21 46 (by decide) (by decide) (by decide)⟩

theorem read_pdf_text_spec_witness :
    match read_pdf_text_bytes none (some "  ") (some "sivun teksti") with
    | .ok t => pyStrip t ≠ "" ∧
        ((accepts none = true ∧ none = some t)
          ∨ (accepts none = false ∧ accepts (some "  ") = true ∧ some "  " = some t)
          ∨ (accepts none = false ∧ accepts (some "  ") = false
              ∧ accepts (some "sivun teksti") = true ∧ some "sivun teksti" = some t))
    | .error _ => accepts none = false ∧ accepts (some "  ") = false
        ∧ accepts (some "sivun teksti") = false :=
  read_pdf_text_spec none (some "  ") (some "sivun teksti")
